import Mathlib

/-!
Verification of the USBTMC client session engine (`rusb-usbtmc`).

The development shallowly embeds the session code of `src/handle.rs` and the
error taxonomy of `src/class/error.rs`.  The wire-format codec, the control
request constants and the capability structures live in a class module that is
not part of the provided sources; those pieces are modelled from the
specification (their doc comments say so explicitly).  Stateful Rust methods
become pure Lean functions that thread an explicit `HandleState`; the device
and the USB transport are modelled as scripts (lists or index functions) of
transfer results consumed in order; Rust panics are modelled by a dedicated
`Outcome.panicked` value and a poll loop that runs out of scripted device
responses ends in `Outcome.hung`.
-/

namespace Usbtmc

/-- Modelled from the spec (§3, §9): the device status codes — success,
pending, and failure variants carrying the raw observed code.  The class
module defining `Status` is not among the provided sources. -/
inductive Status where
  | success
  | pending
  | failed (raw : Nat)
deriving DecidableEq, Repr

/-- The class-level error enumeration, from `src/class/error.rs`. -/
inductive ClassError where
  | illegalStatus
  | invalidCapabilities
  | invalidMsgId
  | invalidTermChar
  | tagCheckFailure
  | truncatedBulkOut
  | truncatedControlResponse
  | truncatedHeader
  | unexpectedStatus (s : Status)
  | unsupportedFeature
deriving DecidableEq, Repr

/-- The crate-level error type, from `src/error.rs`.  Transport errors keep an
opaque numeric code standing for the underlying `rusb::Error`. -/
inductive TMCError where
  | rusb (code : Nat)
  | classError (e : ClassError)
  | fromUtf8
deriving DecidableEq, Repr

/-- Decidable equality for `Except`, so that concrete runs of the embedded
operations can be checked by `decide`. -/
instance {ε α : Type} [DecidableEq ε] [DecidableEq α] : DecidableEq (Except ε α)
  | .ok a, .ok b =>
    if h : a = b then isTrue (by rw [h]) else isFalse fun hh => h (Except.ok.inj hh)
  | .ok _, .error _ => isFalse fun hh => Except.noConfusion hh
  | .error _, .ok _ => isFalse fun hh => Except.noConfusion hh
  | .error a, .error b =>
    if h : a = b then isTrue (by rw [h]) else isFalse fun hh => h (Except.error.inj hh)

/-- Result of running an embedded operation: a value, a typed error, a Rust
panic, or a poll loop that exhausted its scripted device responses. -/
inductive Outcome (α : Type) where
  | ok (a : α)
  | err (e : TMCError)
  | panicked
  | hung
deriving DecidableEq, Repr

/-- Modelled from the spec (§3): the USBTMC capability flags parsed from
GET_CAPABILITIES.  The parsing module is not among the provided sources; only
the flags the session consults are carried. -/
structure USBTMCCapabilities where
  term_char : Bool
  pulse : Bool
  talk_only : Bool
  listen_only : Bool
deriving DecidableEq, Repr

/-- Modelled from the spec (§3): the immutable endpoint set of the instrument,
supplied externally at session creation. -/
structure Endpoints where
  interface_number : Nat
  interface_protocol : Nat
  bulk_out_address : Nat
  bulk_in_address : Nat
  interrupt_in_address : Option Nat
deriving DecidableEq, Repr

/-- The mutable session fields of `InstrumentHandle` (`src/handle.rs`) that the
verified operations read or write: the cyclic message tag, the configured
maximum transfer size, the optional terminator byte, the per-operation timeout
in milliseconds, the parsed USBTMC capability set and the endpoint set. -/
structure HandleState where
  b_tag : Nat
  max_transfer_size : Nat
  term_char : Option Nat
  timeout_ms : Nat
  usbtmc_capabilities : USBTMCCapabilities
  endpoints : Endpoints
deriving DecidableEq, Repr

/-- Little-endian 4-byte encoding of a transfer size field. -/
def u32le (n : Nat) : List Nat :=
  [n % 256, n / 256 % 256, n / 65536 % 256, n / 16777216 % 256]

/-- Little-endian decoding of a 4-byte transfer size field. -/
def u32le_decode (b0 b1 b2 b3 : Nat) : Nat :=
  b0 + 256 * b1 + 65536 * b2 + 16777216 * b3

/-- Modelled from the spec (§4.1, §6): the fixed USBTMC bulk header size in
bytes.  The class module defining `HEADER_SIZE` is not among the provided
sources; the USBTMC class headers are 12 bytes. -/
def HEADER_SIZE : Nat := 12

/-- Number of padding bytes needed to reach a 4-byte boundary (spec §3:
"0–3 alignment padding bytes to a 4-byte boundary"). -/
def pad4 (n : Nat) : Nat := (4 - n % 4) % 4

/-- Modelled from the spec (§4.1 `encode_outbound`): the Device-Dependent
Message-Out encoder — a fixed-size header {message id, tag, complement of tag,
transfer size (little endian), end-of-message flag, reserved bytes} immediately
followed by the payload, padded to the 4-byte alignment.  The class module
defining `DevDepMsgOutHeader` is not among the provided sources. -/
def DevDepMsgOutHeader.encode_message (b_tag : Nat) (data : List Nat) (eom : Bool) :
    List Nat :=
  [1, b_tag % 256, 255 - b_tag % 256, 0]
    ++ u32le data.length
    ++ [if eom then 1 else 0, 0, 0, 0]
    ++ data
    ++ List.replicate (pad4 data.length) 0

/-- Modelled from the spec (§4.1 `encode_read_request`, §3): the
Request-Device-Dependent-Message-In encoder — a fixed-size header {message id,
tag, complement of tag, requested transfer size (little endian),
terminator-enable flag, terminator byte}.  The class module defining
`RequestDevDepMsgInHeader` is not among the provided sources. -/
def RequestDevDepMsgInHeader.encode_message (b_tag : Nat) (transfer_size : Nat)
    (term_char : Option Nat) : List Nat :=
  [2, b_tag % 256, 255 - b_tag % 256, 0]
    ++ u32le transfer_size
    ++ [if term_char.isSome then 2 else 0, term_char.getD 0 % 256, 0, 0]

/-- The decoded Device-Dependent Message-In header (spec §3): tag, declared
transfer size and end-of-message flag, plus the leading message id byte. -/
structure DevDepMsgInHeader where
  msg_id : Nat
  b_tag : Nat
  transfer_size : Nat
  is_eom : Bool
deriving DecidableEq, Repr

/-- Modelled from the spec (§4.1 `decode_inbound`): validates the buffer length
against the fixed header size (truncated-header error if too short), validates
tag/complement consistency (tag-check error on mismatch), extracts the declared
payload length and the end-of-message flag, checks the declared length is
present (truncated error otherwise) and returns the payload with any alignment
padding stripped.  The class module defining `DevDepMsgInHeader::decode_transfer`
is not among the provided sources. -/
def DevDepMsgInHeader.decode_transfer (buf : List Nat) :
    Except ClassError (DevDepMsgInHeader × List Nat) :=
  if buf.length < HEADER_SIZE then
    .error .truncatedHeader
  else
    let tag := buf.getD 1 0
    if buf.getD 2 0 ≠ 255 - tag then
      .error .tagCheckFailure
    else
      let size := u32le_decode (buf.getD 4 0) (buf.getD 5 0) (buf.getD 6 0) (buf.getD 7 0)
      if buf.length < HEADER_SIZE + size then
        .error .truncatedHeader
      else
        .ok (⟨buf.getD 0 0, tag, size, (buf.getD 8 0).testBit 0⟩,
             (buf.drop HEADER_SIZE).take size)

/-- Modelled from the spec (§4.2, §9): parse the first status byte of a control
response — `0x01` is success, `0x02` is pending, anything else is a failure
carrying the raw code. -/
def Status.ofByte (b : Nat) : Status :=
  if b = 1 then .success else if b = 2 then .pending else .failed b

/-- Modelled from the spec (§4.2): a non-success status surfaces as an
unexpected-status error. -/
def Status.check : Status → Except ClassError Unit
  | .success => .ok ()
  | s => .error (.unexpectedStatus s)

/-- Modelled from the spec (§4.2): read the status code from the first byte of
a control response, failing with a truncated-control-response error on an empty
buffer.  The class module defining `ControlRequest::read_response_status` is
not among the provided sources. -/
def read_response_status (out : List Nat) : Except ClassError Status :=
  match out with
  | [] => .error .truncatedControlResponse
  | b :: _ => .ok (Status.ofByte b)

/-- Modelled from the spec (§4.2): parse the leading status byte and require it
to be success.  The class module defining `ControlRequest::check_response_status`
is not among the provided sources. -/
def check_response_status (out : List Nat) : Except ClassError Unit :=
  match read_response_status out with
  | .error e => .error e
  | .ok s => s.check

/-- `InstrumentHandle::incr_b_tag` (`src/handle.rs:259-266`): advance the
session's message tag. -/
def incr_b_tag (b_tag : Nat) : Nat :=
  if b_tag > 127 || b_tag < 2 then 2 else b_tag + 1

/-- `InstrumentHandle::get_max_transfer_size` (`src/handle.rs:122-124`). -/
def get_max_transfer_size (st : HandleState) : Nat :=
  st.max_transfer_size

/-- `InstrumentHandle::set_max_transfer_size` (`src/handle.rs:126-128`): plain
mutator, no validation. -/
def set_max_transfer_size (st : HandleState) (max_transfer_size : Nat) : HandleState :=
  { st with max_transfer_size := max_transfer_size }

/-- `InstrumentHandle::get_term_char` (`src/handle.rs:130-132`). -/
def get_term_char (st : HandleState) : Option Nat :=
  st.term_char

/-- `InstrumentHandle::set_term_char` (`src/handle.rs:134-145`).  Returns the
resulting state together with the result value, so the behaviour of the stored
terminator on the failure paths is observable. -/
def set_term_char (st : HandleState) (term_char : Option Nat) :
    HandleState × Except TMCError Unit :=
  if term_char = some 0 then
    (st, .error (.classError .invalidTermChar))
  else if term_char.isSome && !st.usbtmc_capabilities.term_char then
    (st, .error (.classError .unsupportedFeature))
  else
    ({ st with term_char := term_char }, .ok ())

/-- One bulk-out transfer as observed on the wire: the endpoint address and the
bytes handed to `write_bulk`. -/
structure BulkOut where
  endpoint : Nat
  bytes : List Nat
deriving DecidableEq, Repr

/-- `slice::chunks` from the Rust standard library for a chunk size of `k + 1`:
splits a list into consecutive pieces of that size, the last piece possibly
shorter.  A structural fuel argument (any upper bound on the list length)
drives the recursion so that the function evaluates by kernel reduction; the
`0, _` case is unreachable when the fuel bounds the length. -/
def chunksFuel (k : Nat) : Nat → List α → List (List α)
  | _, [] => []
  | 0, _ => []
  | fuel + 1, x :: xs => (x :: xs).take (k + 1) :: chunksFuel k fuel (xs.drop k)

/-- `data.chunks(size)` as used by `write_raw`; the caller must ensure
`size ≠ 0` (Rust's `slice::chunks` asserts this and panics otherwise —
`write_raw` models that panic explicitly). -/
def chunksList (size : Nat) (xs : List α) : List (List α) :=
  chunksFuel (size - 1) xs.length xs

/-- The chunk loop of `InstrumentHandle::write_raw` (`src/handle.rs:275-286`).
Arguments: bulk-out endpoint, the full input slice `data`, the transport's
scripted bytes-written results `ws` (indexed by transfer number), the current
transfer index, the current tag, the running `end_offset`, and the remaining
chunks.  Note the source encodes `data` — the whole input — into every
transfer's buffer, while the truncation check compares against the current
block's length. -/
def write_raw_go (ep : Nat) (data : List Nat) (ws : Nat → Except Nat Nat) :
    Nat → Nat → Nat → List (List Nat) → Outcome (Nat × List BulkOut)
  | _, b_tag, _, [] => .ok (b_tag, [])
  | i, b_tag, end_offset, block :: rest =>
    let end_offset := end_offset + block.length
    let eom := decide (data.length ≤ end_offset)
    let b_tag := incr_b_tag b_tag
    let buf := DevDepMsgOutHeader.encode_message b_tag data eom
    match ws i with
    | .error e => .err (.rusb e)
    | .ok n_written =>
      if n_written < block.length then
        .err (.classError .truncatedBulkOut)
      else
        match write_raw_go ep data ws (i + 1) b_tag end_offset rest with
        | .ok (t, outs) => .ok (t, ⟨ep, buf⟩ :: outs)
        | o => o

/-- `InstrumentHandle::write_raw` (`src/handle.rs:269-289`): split the input
with `data.chunks(max_transfer_size)` (panicking when the configured maximum is
zero, as Rust's `chunks` does), and for each chunk advance the tag, encode an
outbound transfer and hand it to the bulk-out endpoint, failing with a
truncated-bulk-out error when the transport reports fewer bytes written than
the chunk's length.  Returns the final state and the list of transfers
performed. -/
def write_raw (st : HandleState) (data : List Nat) (ws : Nat → Except Nat Nat) :
    Outcome (HandleState × List BulkOut) :=
  if st.max_transfer_size = 0 then
    .panicked
  else
    match write_raw_go st.endpoints.bulk_out_address data ws 0 st.b_tag 0
        (chunksList st.max_transfer_size data) with
    | .ok (t, outs) => .ok ({ st with b_tag := t }, outs)
    | .err e => .err e
    | .panicked => .panicked
    | .hung => .hung

/-- `transfer_size` clamping done at the top of `InstrumentHandle::read_raw`
(`src/handle.rs:329-332`): a requested size strictly below the configured
maximum is used as is, anything else (including an absent request) falls back
to the configured maximum. -/
def effective_transfer_size (max_transfer_size : Nat) : Option Nat → Nat
  | some size => if size < max_transfer_size then size else max_transfer_size
  | none => max_transfer_size

/-- One iteration of the device script consumed by the `read_raw` loop: the
transport result of the bulk-out request write, and the transport result of
the bulk-in read (the raw bytes the device answers with). -/
def ReadStep : Type := Except Nat Nat × Except Nat (List Nat)

/-- The read loop of `InstrumentHandle::read_raw` (`src/handle.rs:367-398`):
advance the tag, encode and send a Request-Device-Dependent-Message-In header,
bulk-read into a buffer of `HEADER_SIZE + transfer_size + 3` bytes, decode the
inbound transfer (propagating codec errors), accumulate the payload, and stop
when the decoded header declares end of message.  Returns the final tag, the
concatenated payload and the request buffers sent, in order. -/
def read_raw_go (ts : Nat) (term : Option Nat) :
    List ReadStep → Nat → Outcome (Nat × List Nat × List (List Nat))
  | [], _ => .hung
  | (w, r) :: rest, b_tag =>
    let b_tag := incr_b_tag b_tag
    let req := RequestDevDepMsgInHeader.encode_message b_tag ts term
    match w with
    | .error e => .err (.rusb e)
    | .ok _ =>
      match r with
      | .error e => .err (.rusb e)
      | .ok bytes =>
        let buf := bytes.take (HEADER_SIZE + ts + 3)
        match DevDepMsgInHeader.decode_transfer buf with
        | .error ce => .err (.classError ce)
        | .ok (header, data) =>
          if header.is_eom then
            .ok (b_tag, data, [req])
          else
            match read_raw_go ts term rest b_tag with
            | .ok (t, rest_data, reqs) => .ok (t, data ++ rest_data, req :: reqs)
            | o => o

/-- `InstrumentHandle::read_raw` (`src/handle.rs:324-401`): clamp the requested
transfer size, then run the request/read/decode loop against the scripted
device until an end-of-message header. -/
def read_raw (st : HandleState) (transfer_size : Option Nat) (script : List ReadStep) :
    Outcome (HandleState × List Nat × List (List Nat)) :=
  let ts := effective_transfer_size st.max_transfer_size transfer_size
  match read_raw_go ts st.term_char script st.b_tag with
  | .ok (t, data, reqs) => .ok ({ st with b_tag := t }, data, reqs)
  | .err e => .err e
  | .panicked => .panicked
  | .hung => .hung

/-- `InstrumentHandle::ask_raw` (`src/handle.rs:423-427`): a write of the
command bytes followed by an unguarded, unbounded read. -/
def ask_raw (st : HandleState) (data : List Nat) (ws : Nat → Except Nat Nat)
    (reads : List ReadStep) : Outcome (HandleState × List Nat × List (List Nat)) :=
  match write_raw st data ws with
  | .ok (st', _) => read_raw st' none reads
  | .err e => .err e
  | .panicked => .panicked
  | .hung => .hung

/-- The composition the specification describes for `ask_raw` (§4.4, §8):
"write followed immediately by read, with no intervening operation" — the
bytes of `write_raw` on the input, then the bytes of `read_raw` with no size
limit, any failure of either half failing the whole. -/
def ask_raw_specified (st : HandleState) (data : List Nat) (ws : Nat → Except Nat Nat)
    (reads : List ReadStep) : Outcome (HandleState × List Nat × List (List Nat)) :=
  match write_raw st data ws with
  | .ok (st', _) => read_raw st' none reads
  | .err e => .err e
  | .panicked => .panicked
  | .hung => .hung

/-- Observable trace of `InstrumentHandle::clear`: how many CHECK_CLEAR_STATUS
round trips were made, the sleeps performed (in milliseconds, in order), and
how many times the bulk-out halt condition was cleared. -/
structure ClearTrace where
  ccs_trips : Nat
  sleeps : List Nat
  halt_clears : Nat
deriving DecidableEq, Repr

/-- Intermediate result of the clear poll loop: round trips made, sleeps
performed, and the loop's outcome (the tag after the last control transfer on
success). -/
structure ClearPoll where
  trips : Nat
  sleeps : List Nat
  result : Outcome Nat
deriving DecidableEq, Repr

/-- The CHECK_CLEAR_STATUS poll loop of `InstrumentHandle::clear`
(`src/handle.rs:216-226`): each iteration advances the tag (inside
`read_control`), reads a 2-byte status response, breaks on success, sleeps a
fixed 100 ms and retries on pending, and fails on any other status.  `ccs` is
the scripted list of control-transfer results. -/
def clear_go : List (Except Nat (List Nat)) → Nat → ClearPoll
  | [], _ => ⟨0, [], .hung⟩
  | r :: rest, b_tag =>
    let b_tag := incr_b_tag b_tag
    match r with
    | .error e => ⟨1, [], .err (.rusb e)⟩
    | .ok bytes =>
      let out := bytes.take 2
      match read_response_status out with
      | .error ce => ⟨1, [], .err (.classError ce)⟩
      | .ok s =>
        match s with
        | .success => ⟨1, [], .ok b_tag⟩
        | .pending =>
          let p := clear_go rest b_tag
          ⟨p.trips + 1, 100 :: p.sleeps, p.result⟩
        | .failed raw =>
          match (Status.failed raw).check with
          | .error ce => ⟨1, [], .err (.classError ce)⟩
          | .ok _ =>
            let p := clear_go rest b_tag
            ⟨p.trips + 1, 100 :: p.sleeps, p.result⟩

/-- `InstrumentHandle::clear` (`src/handle.rs:209-231`): send INITIATE_CLEAR
and check its 1-byte status, poll CHECK_CLEAR_STATUS until a terminal status,
and on success clear the halt condition on the bulk-out endpoint.  `initiate`,
`ccs` and `halt` script the device's responses to the three kinds of requests;
the returned trace records round trips, sleeps and halt-clear invocations. -/
def clear (st : HandleState) (initiate : Except Nat (List Nat))
    (ccs : List (Except Nat (List Nat))) (halt : Except Nat Unit) :
    ClearTrace × Outcome HandleState :=
  let b_tag := incr_b_tag st.b_tag
  match initiate with
  | .error e => (⟨0, [], 0⟩, .err (.rusb e))
  | .ok bytes =>
    let out := bytes.take 1
    match check_response_status out with
    | .error ce => (⟨0, [], 0⟩, .err (.classError ce))
    | .ok _ =>
      let p := clear_go ccs b_tag
      match p.result with
      | .ok t =>
        match halt with
        | .error e => (⟨p.trips, p.sleeps, 1⟩, .err (.rusb e))
        | .ok _ => (⟨p.trips, p.sleeps, 1⟩, .ok { st with b_tag := t })
      | .err e => (⟨p.trips, p.sleeps, 0⟩, .err e)
      | .panicked => (⟨p.trips, p.sleeps, 0⟩, .panicked)
      | .hung => (⟨p.trips, p.sleeps, 0⟩, .hung)

/-- One iteration of the device script consumed by the `read_stb` poll loop:
the control-transfer result of the Read-Status-Byte request and, as a function
of the endpoint address used, the interrupt-read result. -/
structure StbStep where
  control : Except Nat (List Nat)
  interrupt : Nat → Except Nat (List Nat)

/-- Result of a `read_stb` run: the final clock value (milliseconds since the
call started, advanced 100 ms per poll iteration), the final tag, whether the
message-available notification was observed, and the interrupt-endpoint
addresses used, in order. -/
structure StbRun where
  clock : Nat
  b_tag : Nat
  available : Bool
  addrs : List Nat
deriving DecidableEq, Repr

/-- The poll loop of `InstrumentHandle::read_stb` (`src/handle.rs:297-314`).
Time is modelled by a millisecond clock advanced exactly 100 per iteration (the
fixed sleep); transfers are instantaneous.  Each iteration advances the tag,
issues the status control transfer (propagating transport errors), and if the
status is success performs the interrupt read (propagating transport errors)
into a 2-byte buffer initialised to `[0, 2]`, setting the available flag when
bit 4 (value 16) of the buffer's last byte is set. -/
def read_stb_go (addr end_time : Nat) :
    Nat → Nat → List Nat → Bool → List StbStep → Outcome StbRun
  | clock, b_tag, addrs, available, [] =>
    if clock < end_time ∧ available = false then
      .hung
    else
      .ok ⟨clock, b_tag, available, addrs⟩
  | clock, b_tag, addrs, available, s :: rest =>
    if clock < end_time ∧ available = false then
      let b_tag := incr_b_tag b_tag
      match s.control with
      | .error e => .err (.rusb e)
      | .ok bytes =>
        match check_response_status (bytes.take 3) with
        | .error _ =>
          read_stb_go addr end_time (clock + 100) b_tag addrs available rest
        | .ok _ =>
          match s.interrupt addr with
          | .error e => .err (.rusb e)
          | .ok ib =>
            let filled := ib.take 2 ++ ([0, 2].drop (ib.take 2).length)
            let available := if (filled.getLastD 0).testBit 4 then true else available
            read_stb_go addr end_time (clock + 100) b_tag (addrs ++ [addr]) available rest
    else
      .ok ⟨clock, b_tag, available, addrs⟩

/-- `InstrumentHandle::read_stb` (`src/handle.rs:292-321`): poll the status
byte until the deadline (the given timeout, defaulting to 1000 ms) or until the
message-available notification is observed.  The interrupt endpoint address is
`interrupt_in_address.unwrap_or(0)`. -/
def read_stb (st : HandleState) (timeout : Option Nat) (script : List StbStep) :
    Outcome StbRun :=
  let end_time := timeout.getD 1000
  read_stb_go (st.endpoints.interrupt_in_address.getD 0) end_time 0 st.b_tag [] false script

/-- The decoded header/payload pair a `read_raw` iteration extracts from one
scripted device step at requested size `ts`, when both transfers succeed and
the received buffer decodes. -/
def decoded_chunk (ts : Nat) (e : ReadStep) : Option (DevDepMsgInHeader × List Nat) :=
  match e with
  | (.ok _, .ok bytes) =>
    match DevDepMsgInHeader.decode_transfer (bytes.take (HEADER_SIZE + ts + 3)) with
    | .ok hp => some hp
    | .error _ => none
  | _ => none

/-- The codec error a `read_raw` iteration hits on one scripted device step at
requested size `ts`, if any. -/
def decode_err_of (ts : Nat) (e : ReadStep) : Option ClassError :=
  match e with
  | (.ok _, .ok bytes) =>
    match DevDepMsgInHeader.decode_transfer (bytes.take (HEADER_SIZE + ts + 3)) with
    | .ok _ => none
    | .error ce => some ce
  | _ => none

/-- The payload of a decodable scripted step (empty when it does not decode). -/
def chunk_payload (ts : Nat) (e : ReadStep) : List Nat :=
  ((decoded_chunk ts e).map Prod.snd).getD []

/-- A scripted step that decodes with the end-of-message flag clear. -/
def decodes_more (ts : Nat) (e : ReadStep) : Prop :=
  ∃ hp, decoded_chunk ts e = some hp ∧ hp.1.is_eom = false

/-- A scripted step that decodes with the end-of-message flag set. -/
def decodes_last (ts : Nat) (e : ReadStep) : Prop :=
  ∃ hp, decoded_chunk ts e = some hp ∧ hp.1.is_eom = true

/-- Classification of what one `read_stb` poll iteration observes on a scripted
step: a control transport error, a skipped iteration (non-success control
status), an interrupt transport error, or an interrupt read whose
message-available bit is `b`. -/
inductive StbObs where
  | ctrlErr (e : Nat)
  | skip
  | intErr (e : Nat)
  | seen (b : Bool)
deriving DecidableEq, Repr

/-- The observation one `read_stb` poll iteration makes on a scripted step,
mirroring the branching of the loop body. -/
def stbObserve (addr : Nat) (s : StbStep) : StbObs :=
  match s.control with
  | .error e => .ctrlErr e
  | .ok bytes =>
    match check_response_status (bytes.take 3) with
    | .error _ => .skip
    | .ok _ =>
      match s.interrupt addr with
      | .error e => .intErr e
      | .ok ib =>
        let filled := ib.take 2 ++ ([0, 2].drop (ib.take 2).length)
        .seen ((filled.getLastD 0).testBit 4)

/-- A scripted step on which the poll iteration observes no message-available
notification and no transport error. -/
def stb_quiet (addr : Nat) (s : StbStep) : Prop :=
  stbObserve addr s = .skip ∨ stbObserve addr s = .seen false

instance (addr : Nat) (s : StbStep) : Decidable (stb_quiet addr s) := by
  unfold stb_quiet
  infer_instance

/-! ### Sample values used by concrete instantiations -/

/-- A capability set advertising no optional feature. -/
def sampleCaps : USBTMCCapabilities := ⟨false, false, false, false⟩

/-- A capability set advertising terminator-character support. -/
def sampleCapsTerm : USBTMCCapabilities := ⟨true, false, false, false⟩

/-- A representative endpoint set (bulk-out 4, bulk-in 132, no interrupt-in). -/
def sampleEndpoints : Endpoints := ⟨0, 1, 4, 132, none⟩

/-- A freshly connected session state: tag 0, the 1 MiB default maximum
transfer size, no terminator, 1 s timeout (`connect`, `src/handle.rs:49-64`). -/
def sampleState : HandleState :=
  ⟨0, 1024 * 1024, none, 1000, sampleCaps, sampleEndpoints⟩

/-! ### C1 — tag sequencing -/

/-- Claim C1, counterexample: the first tag advance from 127 does not yield 2 —
it yields 128, escaping the claimed cyclic range 2–127 (the guard in
`incr_b_tag` is `> 127`, not `>= 127`). -/
theorem incr_b_tag_127_escapes_range :
    incr_b_tag 127 ≠ 2 ∧ 127 < incr_b_tag 127 := by decide

/-- Claim C1 (amended): consecutive tag advances from 127 first yield 128 and
only then reset to 2, 3, …; from any value below 2 (or above 127) the tag
resets to 2; the advance never yields 0 or 1, keeping the tag inside the
cyclic range 2–128. -/
theorem incr_b_tag_cycle (b : Nat) :
    (b < 2 → incr_b_tag b = 2) ∧
    (127 < b → incr_b_tag b = 2) ∧
    (2 ≤ b → b ≤ 127 → incr_b_tag b = b + 1) ∧
    2 ≤ incr_b_tag b ∧ incr_b_tag b ≤ 128 ∧
    incr_b_tag b ≠ 0 ∧ incr_b_tag b ≠ 1 ∧
    incr_b_tag 127 = 128 ∧ incr_b_tag (incr_b_tag 127) = 2 ∧ incr_b_tag 2 = 3 := by
  have hcase : incr_b_tag b = if 127 < b ∨ b < 2 then 2 else b + 1 := by
    unfold incr_b_tag
    by_cases h1 : 127 < b
    · simp [h1]
    · by_cases h2 : b < 2 <;> simp [h1, h2]
  refine ⟨?_, ?_, ?_, ?_, ?_, ?_, ?_, by decide, by decide, by decide⟩ <;>
    rw [hcase] <;> split_ifs with h <;> omega

/-- Witness for `incr_b_tag_cycle` at the concrete tags 1, 130 and 50. -/
theorem incr_b_tag_cycle_witness :
    incr_b_tag 1 = 2 ∧ incr_b_tag 130 = 2 ∧ incr_b_tag 50 = 51 :=
  ⟨(incr_b_tag_cycle 1).1 (by norm_num),
   (incr_b_tag_cycle 130).2.1 (by norm_num),
   (incr_b_tag_cycle 50).2.2.1 (by norm_num) (by norm_num)⟩

/-! ### C2 — write_raw chunk payloads -/

/-- Claim C2, evaluation at the failing input (maximum transfer size 1, input
`[10, 20]`): `write_raw` performs two bulk-out transfers with end-of-message
only on the second, but both transfers carry the whole input `[10, 20]` as
payload (the source passes `data`, not `block`, to the header encoder), not
the single-byte chunk the claim requires — the encoding of the whole input
differs from the encoding of the first chunk. -/
theorem write_raw_whole_input_every_chunk :
    write_raw { sampleState with max_transfer_size := 1 } [10, 20] (fun _ => .ok 16) =
      .ok ({ sampleState with max_transfer_size := 1, b_tag := 3 },
        [⟨4, DevDepMsgOutHeader.encode_message 2 [10, 20] false⟩,
         ⟨4, DevDepMsgOutHeader.encode_message 3 [10, 20] true⟩]) ∧
    DevDepMsgOutHeader.encode_message 2 [10, 20] false ≠
      DevDepMsgOutHeader.encode_message 2 [10] false := by
  decide

/-! ### C3 — the clear handshake -/

/-- Claim C3: with a successful INITIATE_CLEAR and scripted CHECK_CLEAR_STATUS
responses pending, pending, success, `clear` performs exactly three
CHECK_CLEAR_STATUS round trips (ignoring any further scripted responses),
sleeps 100 ms between retries (twice), invokes the bulk-out halt-clear exactly
once, and succeeds; while a non-pending/non-success status is a terminal
unexpected-status error with no halt-clear invocation. -/
theorem clear_pending_pending_success :
    (∀ (st : HandleState) (rest : List (Except Nat (List Nat))),
      clear st (.ok [1]) ([.ok [2, 0], .ok [2, 0], .ok [1, 0]] ++ rest) (.ok ()) =
        ({ ccs_trips := 3, sleeps := [100, 100], halt_clears := 1 },
         .ok { st with
                b_tag := incr_b_tag (incr_b_tag (incr_b_tag (incr_b_tag st.b_tag))) })) ∧
    (∀ (st : HandleState) (b : Nat), b ≠ 1 → b ≠ 2 →
      clear st (.ok [1]) [.ok [b, 0]] (.ok ()) =
        ({ ccs_trips := 1, sleeps := [], halt_clears := 0 },
         .err (.classError (.unexpectedStatus (.failed b))))) := by
  constructor
  · intro st rest
    rfl
  · intro st b h1 h2
    simp [clear, clear_go, check_response_status, read_response_status, Status.ofByte,
      Status.check, h1, h2]

/-- Witness for `clear_pending_pending_success` on a fresh session state, with
the unexpected status 3. -/
theorem clear_pending_pending_success_witness :
    clear sampleState (.ok [1]) [.ok [2, 0], .ok [2, 0], .ok [1, 0]] (.ok ()) =
      ({ ccs_trips := 3, sleeps := [100, 100], halt_clears := 1 },
       .ok { sampleState with b_tag := 5 }) ∧
    clear sampleState (.ok [1]) [.ok [3, 0]] (.ok ()) =
      ({ ccs_trips := 1, sleeps := [], halt_clears := 0 },
       .err (.classError (.unexpectedStatus (.failed 3)))) :=
  ⟨clear_pending_pending_success.1 sampleState [],
   clear_pending_pending_success.2 sampleState 3 (by decide) (by decide)⟩

/-! ### C5 — ask_raw refinement -/

/-- Claim C5: for every input and every scripted device behaviour, `ask_raw`
returns exactly what the composition the specification describes — `write_raw`
followed immediately by `read_raw` with no size limit — returns, and fails
exactly when that composition fails. -/
theorem ask_raw_eq_write_then_read (st : HandleState) (data : List Nat)
    (ws : Nat → Except Nat Nat) (reads : List ReadStep) :
    ask_raw st data ws reads = ask_raw_specified st data ws reads := rfl

/-! ### C6 — terminator configuration -/

/-- Claim C6: `set_term_char` with the zero byte always fails with the
invalid-terminator error regardless of capability state; with a non-zero byte
it fails with the unsupported-feature error when the capability set does not
advertise terminator support and succeeds, storing the byte, when it does; and
every failure leaves the stored terminator unchanged. -/
theorem set_term_char_spec :
    (∀ st : HandleState,
      set_term_char st (some 0) = (st, .error (.classError .invalidTermChar))) ∧
    (∀ (st : HandleState) (b : Nat), b ≠ 0 →
      st.usbtmc_capabilities.term_char = false →
      set_term_char st (some b) = (st, .error (.classError .unsupportedFeature))) ∧
    (∀ (st : HandleState) (b : Nat), b ≠ 0 →
      st.usbtmc_capabilities.term_char = true →
      set_term_char st (some b) = ({ st with term_char := some b }, .ok ())) ∧
    (∀ (st : HandleState) (t : Option Nat) (e : TMCError),
      (set_term_char st t).2 = .error e → (set_term_char st t).1 = st) := by
  refine ⟨?_, ?_, ?_, ?_⟩
  · intro st
    simp [set_term_char]
  · intro st b hb hc
    simp [set_term_char, hb, hc]
  · intro st b hb hc
    simp [set_term_char, hb, hc]
  · intro st t e h
    unfold set_term_char at h ⊢
    split_ifs at h ⊢ <;> simp_all

/-- Witness for `set_term_char_spec`: the zero byte is rejected on a
terminator-capable state, byte 10 is rejected without the capability and
stored with it, and both failures leave the stored terminator untouched. -/
theorem set_term_char_spec_witness :
    set_term_char { sampleState with usbtmc_capabilities := sampleCapsTerm } (some 0) =
      ({ sampleState with usbtmc_capabilities := sampleCapsTerm },
       .error (.classError .invalidTermChar)) ∧
    set_term_char sampleState (some 10) =
      (sampleState, .error (.classError .unsupportedFeature)) ∧
    set_term_char { sampleState with usbtmc_capabilities := sampleCapsTerm } (some 10) =
      ({ sampleState with usbtmc_capabilities := sampleCapsTerm, term_char := some 10 },
       .ok ()) ∧
    (set_term_char sampleState (some 10)).1 = sampleState :=
  ⟨set_term_char_spec.1 _,
   set_term_char_spec.2.1 sampleState 10 (by decide) rfl,
   set_term_char_spec.2.2.1 _ 10 (by decide) rfl,
   set_term_char_spec.2.2.2 sampleState (some 10) (.classError .unsupportedFeature)
     (by decide)⟩

/-! ### C9 — zero maximum transfer size -/

/-- Claim C9: `set_max_transfer_size` accepts 0 without error (it is an
unvalidated plain mutator), and afterwards `write_raw` panics on every input
and every transport behaviour, because `data.chunks(0)` panics in Rust — so
`write_raw` is not total when the configured maximum transfer size is 0. -/
theorem write_raw_panics_on_zero_max (st : HandleState) (data : List Nat)
    (ws : Nat → Except Nat Nat) :
    (set_max_transfer_size st 0).max_transfer_size = 0 ∧
    write_raw (set_max_transfer_size st 0) data ws = .panicked :=
  ⟨rfl, by simp [write_raw, set_max_transfer_size]⟩

/-! ### C8 — truncated bulk-out -/

/-- On a transport that reports `f j` bytes written for the `j`-th transfer and
never errors, the `write_raw` chunk loop fails with the truncated-bulk-out
error exactly when some chunk's reported count undercuts that chunk's
length. -/
theorem write_raw_go_truncated_iff (ep : Nat) (data : List Nat) (f : Nat → Nat)
    (blocks : List (List Nat)) :
    ∀ (i b_tag end_offset : Nat),
      write_raw_go ep data (fun j => .ok (f j)) i b_tag end_offset blocks =
          .err (.classError .truncatedBulkOut) ↔
        ∃ j, j < blocks.length ∧ f (i + j) < (blocks.getD j []).length := by
  induction blocks with
  | nil =>
    intro i b_tag end_offset
    simp [write_raw_go]
  | cons block rest ih =>
    intro i b_tag end_offset
    simp only [write_raw_go]
    by_cases hf : f i < block.length
    · rw [if_pos hf]
      constructor
      · intro _
        exact ⟨0, by simp, by simpa using hf⟩
      · intro _
        rfl
    · rw [if_neg hf]
      have hih := ih (i + 1) (incr_b_tag b_tag) (end_offset + block.length)
      have hshift :
          (∃ j, j < rest.length ∧ f (i + 1 + j) < (rest.getD j []).length) ↔
            ∃ j, j < (block :: rest).length ∧
              f (i + j) < ((block :: rest).getD j []).length := by
        constructor
        · rintro ⟨j, hj, hlt⟩
          refine ⟨j + 1, by simpa using Nat.succ_lt_succ hj, ?_⟩
          rw [List.getD_cons_succ]
          have harith : i + (j + 1) = i + 1 + j := by omega
          rw [harith]
          exact hlt
        · rintro ⟨j, hj, hlt⟩
          cases j with
          | zero =>
            rw [List.getD_cons_zero] at hlt
            exact absurd (by simpa using hlt) hf
          | succ j' =>
            refine ⟨j', by simpa using Nat.lt_of_succ_lt_succ hj, ?_⟩
            rw [List.getD_cons_succ] at hlt
            have harith : i + 1 + j' = i + (j' + 1) := by omega
            rw [harith]
            exact hlt
      rw [← hshift, ← hih]
      cases hrec : write_raw_go ep data (fun j => .ok (f j)) (i + 1) (incr_b_tag b_tag)
          (end_offset + block.length) rest with
      | ok v =>
        obtain ⟨t, outs⟩ := v
        simp
      | err e => simp
      | panicked => simp
      | hung => simp

/-- Claim C8: on a transport that never errors, `write_raw` fails with the
truncated-bulk-out error exactly when the transport reports fewer bytes
written than some chunk's length — the whole write fails (the success value
carries no byte count, so there is no partial success). -/
theorem write_raw_truncated_iff_underrun (st : HandleState) (data : List Nat)
    (f : Nat → Nat) (hmax : st.max_transfer_size ≠ 0) :
    write_raw st data (fun j => .ok (f j)) = .err (.classError .truncatedBulkOut) ↔
      ∃ j, j < (chunksList st.max_transfer_size data).length ∧
        f j < ((chunksList st.max_transfer_size data).getD j []).length := by
  unfold write_raw
  rw [if_neg hmax]
  have h := write_raw_go_truncated_iff st.endpoints.bulk_out_address data f
    (chunksList st.max_transfer_size data) 0 st.b_tag 0
  simp only [Nat.zero_add] at h
  rw [← h]
  cases hgo : write_raw_go st.endpoints.bulk_out_address data (fun j => .ok (f j)) 0
      st.b_tag 0 (chunksList st.max_transfer_size data) with
  | ok v =>
    obtain ⟨t, outs⟩ := v
    simp
  | err e => simp
  | panicked => simp
  | hung => simp

/-- Witness for `write_raw_truncated_iff_underrun`: with maximum transfer size
4 and a 5-byte input, a transport that reports 2 bytes written makes the whole
write fail with the truncated-bulk-out error. -/
theorem write_raw_truncated_iff_underrun_witness :
    write_raw { sampleState with max_transfer_size := 4 } [1, 2, 3, 4, 5]
        (fun j => .ok ((fun _ => 2) j)) = .err (.classError .truncatedBulkOut) :=
  (write_raw_truncated_iff_underrun { sampleState with max_transfer_size := 4 }
      [1, 2, 3, 4, 5] (fun _ => 2) (by decide)).mpr ⟨0, by decide, by decide⟩

/-! ### C4 — read_raw chunk accumulation -/

/-- Unfolding of one `read_raw` loop iteration on a step whose transfers
succeed and whose buffer decodes. -/
theorem read_raw_go_cons_decoded (ts : Nat) (term : Option Nat) (e : ReadStep)
    (rest : List ReadStep) (b_tag : Nat) (hd : DevDepMsgInHeader) (p : List Nat)
    (hdec : decoded_chunk ts e = some (hd, p)) :
    read_raw_go ts term (e :: rest) b_tag =
      if hd.is_eom then
        .ok (incr_b_tag b_tag, p,
          [RequestDevDepMsgInHeader.encode_message (incr_b_tag b_tag) ts term])
      else
        match read_raw_go ts term rest (incr_b_tag b_tag) with
        | .ok (t, rest_data, reqs) =>
          .ok (t, p ++ rest_data,
            RequestDevDepMsgInHeader.encode_message (incr_b_tag b_tag) ts term :: reqs)
        | o => o := by
  obtain ⟨w, r⟩ := e
  cases w with
  | error e2 => simp [decoded_chunk] at hdec
  | ok n =>
    cases r with
    | error e2 => simp [decoded_chunk] at hdec
    | ok bytes =>
      simp only [decoded_chunk] at hdec
      cases hdt : DevDepMsgInHeader.decode_transfer (bytes.take (HEADER_SIZE + ts + 3)) with
      | error ce =>
        rw [hdt] at hdec
        exact absurd hdec (by simp)
      | ok hp =>
        rw [hdt] at hdec
        obtain rfl : hp = (hd, p) := by simpa using hdec
        simp only [read_raw_go, hdt]

/-- One `read_raw` loop iteration on a step whose buffer fails to decode
surfaces the codec error. -/
theorem read_raw_go_cons_decode_err (ts : Nat) (term : Option Nat) (e : ReadStep)
    (rest : List ReadStep) (b_tag : Nat) (ce : ClassError)
    (herr : decode_err_of ts e = some ce) :
    read_raw_go ts term (e :: rest) b_tag = .err (.classError ce) := by
  obtain ⟨w, r⟩ := e
  cases w with
  | error e2 => simp [decode_err_of] at herr
  | ok n =>
    cases r with
    | error e2 => simp [decode_err_of] at herr
    | ok bytes =>
      simp only [decode_err_of] at herr
      cases hdt : DevDepMsgInHeader.decode_transfer (bytes.take (HEADER_SIZE + ts + 3)) with
      | ok hp =>
        rw [hdt] at herr
        exact absurd herr (by simp)
      | error ce2 =>
        rw [hdt] at herr
        obtain rfl : ce2 = ce := by simpa using herr
        simp only [read_raw_go, hdt]

/-- The `read_raw` loop on a script of decodable non-final chunks followed by a
decodable final chunk returns the payload concatenation in order, stopping at
the final chunk, and sends one size-`ts` request per consumed chunk. -/
theorem read_raw_go_concat (ts : Nat) (term : Option Nat) :
    ∀ (pre : List ReadStep) (elast : ReadStep) (rest : List ReadStep) (b_tag : Nat),
      (∀ e ∈ pre, decodes_more ts e) → decodes_last ts elast →
      ∃ tag reqs,
        read_raw_go ts term (pre ++ elast :: rest) b_tag =
            .ok (tag, (pre.map (chunk_payload ts)).join ++ chunk_payload ts elast, reqs) ∧
          reqs.length = pre.length + 1 ∧
          ∀ q ∈ reqs, ∃ t2, q = RequestDevDepMsgInHeader.encode_message t2 ts term := by
  intro pre
  induction pre with
  | nil =>
    intro elast rest b_tag _ hlast
    obtain ⟨⟨hd, p⟩, hdec, heom⟩ := hlast
    refine ⟨incr_b_tag b_tag,
      [RequestDevDepMsgInHeader.encode_message (incr_b_tag b_tag) ts term], ?_, by simp, ?_⟩
    · rw [List.nil_append, read_raw_go_cons_decoded ts term elast rest b_tag hd p hdec,
        if_pos heom]
      simp [chunk_payload, hdec]
    · intro q hq
      simp only [List.mem_singleton] at hq
      exact ⟨incr_b_tag b_tag, hq⟩
  | cons e pre ih =>
    intro elast rest b_tag hpre hlast
    obtain ⟨⟨hd, p⟩, hdec, heom⟩ := hpre e (by simp)
    have hpre2 : ∀ x ∈ pre, decodes_more ts x := fun x hx => hpre x (by simp [hx])
    obtain ⟨tag, reqs, hgo, hlen, hq⟩ := ih elast rest (incr_b_tag b_tag) hpre2 hlast
    refine ⟨tag, RequestDevDepMsgInHeader.encode_message (incr_b_tag b_tag) ts term :: reqs,
      ?_, by simp [hlen], ?_⟩
    · rw [List.cons_append,
        read_raw_go_cons_decoded ts term e (pre ++ elast :: rest) b_tag hd p hdec,
        if_neg (by simp [show hd.is_eom = false from heom]), hgo]
      simp [chunk_payload, hdec, List.append_assoc]
    · intro q hq2
      rcases List.mem_cons.mp hq2 with h | h
      · exact ⟨incr_b_tag b_tag, h⟩
      · exact hq q h

/-- The `read_raw` loop propagates the codec error of the first undecodable
chunk after any run of decodable non-final chunks. -/
theorem read_raw_go_propagates_decode_err (ts : Nat) (term : Option Nat) :
    ∀ (pre : List ReadStep) (ebad : ReadStep) (rest : List ReadStep) (b_tag : Nat)
      (ce : ClassError),
      (∀ e ∈ pre, decodes_more ts e) → decode_err_of ts ebad = some ce →
      read_raw_go ts term (pre ++ ebad :: rest) b_tag = .err (.classError ce) := by
  intro pre
  induction pre with
  | nil =>
    intro ebad rest b_tag ce _ herr
    rw [List.nil_append]
    exact read_raw_go_cons_decode_err ts term ebad rest b_tag ce herr
  | cons e pre ih =>
    intro ebad rest b_tag ce hpre herr
    obtain ⟨⟨hd, p⟩, hdec, heom⟩ := hpre e (by simp)
    rw [List.cons_append,
      read_raw_go_cons_decoded ts term e (pre ++ ebad :: rest) b_tag hd p hdec,
      if_neg (by simp [show hd.is_eom = false from heom]),
      ih ebad rest (incr_b_tag b_tag) ce (fun x hx => hpre x (by simp [hx])) herr]

/-- Claim C4: `read_raw` requests `min(max_size, configured maximum)` bytes per
chunk (the configured maximum when `max_size` is absent or not smaller); on a
script of decodable chunks it appends each decoded chunk's payload in order,
stops exactly at the first chunk whose decoded header declares end-of-message
(any later scripted chunks are never consumed), sends exactly one request per
consumed chunk (each requesting the clamped size with the stored terminator),
and returns the concatenation of the payloads; codec decode errors are
propagated. -/
theorem read_raw_concat_until_eom :
    (∀ max_transfer_size s : Nat,
      effective_transfer_size max_transfer_size (some s) = min s max_transfer_size ∧
      effective_transfer_size max_transfer_size none = max_transfer_size) ∧
    (∀ (st : HandleState) (tsz : Option Nat) (pre : List ReadStep) (elast : ReadStep)
        (rest : List ReadStep),
      (∀ e ∈ pre, decodes_more (effective_transfer_size st.max_transfer_size tsz) e) →
      decodes_last (effective_transfer_size st.max_transfer_size tsz) elast →
      ∃ tag reqs,
        read_raw st tsz (pre ++ elast :: rest) =
            .ok ({ st with b_tag := tag },
              (pre.map (chunk_payload (effective_transfer_size st.max_transfer_size tsz))).join
                ++ chunk_payload (effective_transfer_size st.max_transfer_size tsz) elast,
              reqs) ∧
          reqs.length = pre.length + 1 ∧
          ∀ q ∈ reqs, ∃ t2, q = RequestDevDepMsgInHeader.encode_message t2
            (effective_transfer_size st.max_transfer_size tsz) st.term_char) ∧
    (∀ (st : HandleState) (tsz : Option Nat) (pre : List ReadStep) (ebad : ReadStep)
        (rest : List ReadStep) (ce : ClassError),
      (∀ e ∈ pre, decodes_more (effective_transfer_size st.max_transfer_size tsz) e) →
      decode_err_of (effective_transfer_size st.max_transfer_size tsz) ebad = some ce →
      read_raw st tsz (pre ++ ebad :: rest) = .err (.classError ce)) := by
  refine ⟨?_, ?_, ?_⟩
  · intro m s
    constructor
    · simp only [effective_transfer_size]
      split_ifs with h <;> omega
    · rfl
  · intro st tsz pre elast rest hpre hlast
    obtain ⟨tag, reqs, hgo, hlen, hq⟩ :=
      read_raw_go_concat (effective_transfer_size st.max_transfer_size tsz) st.term_char
        pre elast rest st.b_tag hpre hlast
    refine ⟨tag, reqs, ?_, hlen, hq⟩
    simp only [read_raw]
    rw [hgo]
  · intro st tsz pre ebad rest ce hpre herr
    have hgo := read_raw_go_propagates_decode_err
      (effective_transfer_size st.max_transfer_size tsz) st.term_char
      pre ebad rest st.b_tag ce hpre herr
    simp only [read_raw]
    rw [hgo]

/-- Witness for `read_raw_concat_until_eom`: a two-chunk script (a 2-byte
non-final chunk then a 1-byte final chunk) concatenates to `[65, 66, 67]` with
exactly two requests. -/
theorem read_raw_concat_until_eom_witness :
    ∃ tag reqs,
      read_raw { sampleState with max_transfer_size := 100 } none
          [(.ok 12, .ok [1, 5, 250, 0, 2, 0, 0, 0, 0, 0, 0, 0, 65, 66]),
           (.ok 12, .ok [1, 6, 249, 0, 1, 0, 0, 0, 1, 0, 0, 0, 67])] =
        .ok ({ sampleState with max_transfer_size := 100, b_tag := tag },
          [65, 66, 67], reqs) ∧
      reqs.length = 2 ∧
      ∀ q ∈ reqs, ∃ t2, q = RequestDevDepMsgInHeader.encode_message t2 100 none :=
  read_raw_concat_until_eom.2.1 { sampleState with max_transfer_size := 100 } none
    [(.ok 12, .ok [1, 5, 250, 0, 2, 0, 0, 0, 0, 0, 0, 0, 65, 66])]
    (.ok 12, .ok [1, 6, 249, 0, 1, 0, 0, 0, 1, 0, 0, 0, 67]) []
    (by
      intro e he
      simp only [List.mem_singleton] at he
      subst he
      exact ⟨(⟨1, 5, 2, false⟩, [65, 66]), by decide, rfl⟩)
    ⟨(⟨1, 6, 1, true⟩, [67]), by decide, rfl⟩

/-! ### C7 / C10 — read_stb polling -/

/-- When the while-condition fails (deadline reached or notification already
observed), the `read_stb` loop exits with the current state. -/
theorem read_stb_go_exit (addr end_time clock b_tag : Nat) (addrs : List Nat)
    (available : Bool) (script : List StbStep)
    (h : ¬(clock < end_time ∧ available = false)) :
    read_stb_go addr end_time clock b_tag addrs available script =
      .ok ⟨clock, b_tag, available, addrs⟩ := by
  cases script <;> simp only [read_stb_go, if_neg h]

/-- One `read_stb` poll iteration before the deadline, expressed through the
observation classifier. -/
theorem read_stb_go_step (addr end_time clock b_tag : Nat) (addrs : List Nat)
    (s : StbStep) (rest : List StbStep) (h : clock < end_time) :
    read_stb_go addr end_time clock b_tag addrs false (s :: rest) =
      match stbObserve addr s with
      | .ctrlErr e => .err (.rusb e)
      | .skip => read_stb_go addr end_time (clock + 100) (incr_b_tag b_tag) addrs false rest
      | .intErr e => .err (.rusb e)
      | .seen b =>
        read_stb_go addr end_time (clock + 100) (incr_b_tag b_tag) (addrs ++ [addr]) b
          rest := by
  simp only [read_stb_go, stbObserve, and_true]
  rw [if_pos h]
  cases s.control with
  | error e => rfl
  | ok bytes =>
    dsimp only
    cases check_response_status (bytes.take 3) with
    | error e2 => rfl
    | ok u =>
      dsimp only
      cases s.interrupt addr with
      | error e => rfl
      | ok ib =>
        dsimp only
        cases hbit : ((ib.take 2 ++ ([0, 2].drop (ib.take 2).length)).getLastD 0).testBit 4 <;>
          simp [hbit]

/-- A run of quiet poll iterations carries the loop to the corresponding later
clock without terminating it. -/
theorem read_stb_go_quiet_prefix (addr end_time : Nat) :
    ∀ (pre rest : List StbStep) (clock b_tag : Nat) (addrs : List Nat),
      (∀ s ∈ pre, stb_quiet addr s) → clock + 100 * pre.length ≤ end_time →
      ∃ t a, read_stb_go addr end_time clock b_tag addrs false (pre ++ rest) =
        read_stb_go addr end_time (clock + 100 * pre.length) t a false rest := by
  intro pre
  induction pre with
  | nil =>
    intro rest clock b_tag addrs _ _
    exact ⟨b_tag, addrs, by simp⟩
  | cons s pre ih =>
    intro rest clock b_tag addrs hq hlen
    simp only [List.length_cons] at hlen ⊢
    have hc : clock < end_time := by omega
    have harith : clock + 100 * (pre.length + 1) = clock + 100 + 100 * pre.length := by ring
    rw [harith, List.cons_append, read_stb_go_step addr end_time clock b_tag addrs s _ hc]
    rcases hq s (by simp) with hobs | hobs <;> rw [hobs]
    · exact ih rest (clock + 100) (incr_b_tag b_tag) addrs
        (fun x hx => hq x (by simp [hx])) (by omega)
    · exact ih rest (clock + 100) (incr_b_tag b_tag) (addrs ++ [addr])
        (fun x hx => hq x (by simp [hx])) (by omega)

/-- Claim C7: with the default deadline (no timeout given, 1000 ms) and a poll
iteration every 100 ms, `read_stb` returns false at the deadline when every
iteration is quiet; returns true as soon as an iteration observes the
notification bit (value 16), at clock `100 * (k + 1)` for the `k`-th step —
strictly before the full deadline; and propagates a transport error of either
the control transfer or the interrupt read immediately. -/
theorem read_stb_poll_behaviour :
    (∀ (st : HandleState) (script : List StbStep),
      (∀ s ∈ script, stb_quiet (st.endpoints.interrupt_in_address.getD 0) s) →
      10 ≤ script.length →
      ∃ t a, read_stb st none script = .ok ⟨1000, t, false, a⟩) ∧
    (∀ (st : HandleState) (pre : List StbStep) (s : StbStep) (rest : List StbStep),
      (∀ x ∈ pre, stb_quiet (st.endpoints.interrupt_in_address.getD 0) x) →
      stbObserve (st.endpoints.interrupt_in_address.getD 0) s = .seen true →
      pre.length ≤ 8 →
      (∃ t a, read_stb st none (pre ++ s :: rest) =
        .ok ⟨100 * (pre.length + 1), t, true, a⟩) ∧
      100 * (pre.length + 1) < 1000) ∧
    (∀ (st : HandleState) (pre : List StbStep) (s : StbStep) (rest : List StbStep) (e : Nat),
      (∀ x ∈ pre, stb_quiet (st.endpoints.interrupt_in_address.getD 0) x) →
      (stbObserve (st.endpoints.interrupt_in_address.getD 0) s = .ctrlErr e ∨
        stbObserve (st.endpoints.interrupt_in_address.getD 0) s = .intErr e) →
      pre.length ≤ 9 →
      read_stb st none (pre ++ s :: rest) = .err (.rusb e)) := by
  refine ⟨?_, ?_, ?_⟩
  · intro st script hq hlen
    obtain ⟨t, a, he⟩ := read_stb_go_quiet_prefix
      (st.endpoints.interrupt_in_address.getD 0) 1000 (script.take 10) (script.drop 10)
      0 st.b_tag [] (fun s hs => hq s (List.take_subset 10 script hs))
      (by rw [List.length_take]; omega)
    have htake : (script.take 10).length = 10 := by rw [List.length_take]; omega
    rw [htake] at he
    simp only [Nat.zero_add] at he
    refine ⟨t, a, ?_⟩
    simp only [read_stb, Option.getD_none]
    rw [← List.take_append_drop 10 script, he,
      read_stb_go_exit _ 1000 1000 t a false _ (by simp)]
  · intro st pre s rest hq hobs hlen
    refine ⟨?_, by omega⟩
    obtain ⟨t, a, he⟩ := read_stb_go_quiet_prefix
      (st.endpoints.interrupt_in_address.getD 0) 1000 pre (s :: rest)
      0 st.b_tag [] hq (by omega)
    simp only [Nat.zero_add] at he
    refine ⟨incr_b_tag t, a ++ [st.endpoints.interrupt_in_address.getD 0], ?_⟩
    simp only [read_stb, Option.getD_none]
    rw [he, read_stb_go_step _ 1000 (100 * pre.length) t a s rest (by omega), hobs]
    dsimp only
    rw [read_stb_go_exit _ 1000 (100 * pre.length + 100) _ _ true rest (by simp)]
    have harith : 100 * pre.length + 100 = 100 * (pre.length + 1) := by ring
    rw [harith]
  · intro st pre s rest e hq hobs hlen
    obtain ⟨t, a, he⟩ := read_stb_go_quiet_prefix
      (st.endpoints.interrupt_in_address.getD 0) 1000 pre (s :: rest)
      0 st.b_tag [] hq (by omega)
    simp only [Nat.zero_add] at he
    simp only [read_stb, Option.getD_none]
    rw [he, read_stb_go_step _ 1000 (100 * pre.length) t a s rest (by omega)]
    rcases hobs with hobs | hobs <;> rw [hobs]

/-- Witness for `read_stb_poll_behaviour`: ten quiet polls return false at the
1000 ms deadline; a notification on the third poll returns true at 300 ms; a
control transport error on the first poll propagates immediately. -/
theorem read_stb_poll_behaviour_witness :
    (∃ t a, read_stb sampleState none
        (List.replicate 10 ⟨.ok [1, 0, 0], fun _ => .ok [0, 0]⟩) =
      .ok ⟨1000, t, false, a⟩) ∧
    (∃ t a, read_stb sampleState none
        ([⟨.ok [1, 0, 0], fun _ => .ok [0, 0]⟩, ⟨.ok [1, 0, 0], fun _ => .ok [0, 0]⟩] ++
          ⟨.ok [1, 0, 0], fun _ => .ok [0, 16]⟩ :: []) =
      .ok ⟨300, t, true, a⟩) ∧
    read_stb sampleState none ([] ++ ⟨.error 7, fun _ => .ok [0, 0]⟩ :: []) =
      .err (.rusb 7) :=
  ⟨read_stb_poll_behaviour.1 sampleState _
    (by
      intro s hs
      rw [List.eq_of_mem_replicate hs]
      decide)
    (by simp),
   (read_stb_poll_behaviour.2.1 sampleState
      [⟨.ok [1, 0, 0], fun _ => .ok [0, 0]⟩, ⟨.ok [1, 0, 0], fun _ => .ok [0, 0]⟩]
      ⟨.ok [1, 0, 0], fun _ => .ok [0, 16]⟩ []
      (by
        intro x hx
        rcases List.mem_cons.mp hx with h | h
        · subst h; decide
        · rw [List.mem_singleton] at h; subst h; decide)
      (by decide) (by decide)).1,
   read_stb_poll_behaviour.2.2 sampleState [] ⟨.error 7, fun _ => .ok [0, 0]⟩ [] 7
     (by simp) (Or.inl (by decide)) (by decide)⟩

/-- Transport errors are the only errors the `read_stb` loop can produce. -/
theorem read_stb_go_err_rusb (addr end_time : Nat) :
    ∀ (script : List StbStep) (clock b_tag : Nat) (addrs : List Nat) (available : Bool)
      (e : TMCError),
      read_stb_go addr end_time clock b_tag addrs available script = .err e →
      ∃ code, e = .rusb code := by
  intro script
  induction script with
  | nil =>
    intro clock b_tag addrs available e h
    simp only [read_stb_go] at h
    by_cases hc : clock < end_time ∧ available = false
    · rw [if_pos hc] at h
      exact absurd h (by simp)
    · rw [if_neg hc] at h
      exact absurd h (by simp)
  | cons s rest ih =>
    intro clock b_tag addrs available e h
    simp only [read_stb_go] at h
    by_cases hc : clock < end_time ∧ available = false
    · rw [if_pos hc] at h
      cases hctrl : s.control with
      | error e2 =>
        rw [hctrl] at h
        dsimp only at h
        exact ⟨e2, (Outcome.err.inj h).symm⟩
      | ok bytes =>
        rw [hctrl] at h
        dsimp only at h
        cases hchk : check_response_status (bytes.take 3) with
        | error e3 =>
          rw [hchk] at h
          dsimp only at h
          exact ih _ _ _ _ _ h
        | ok u =>
          rw [hchk] at h
          dsimp only at h
          cases hint : s.interrupt addr with
          | error e2 =>
            rw [hint] at h
            dsimp only at h
            exact ⟨e2, (Outcome.err.inj h).symm⟩
          | ok ib =>
            rw [hint] at h
            dsimp only at h
            exact ih _ _ _ _ _ h
    · rw [if_neg hc] at h
      exact absurd h (by simp)

/-- Every interrupt-endpoint address the `read_stb` loop uses is the address it
was given (or was already in the accumulator). -/
theorem read_stb_go_addrs (addr end_time : Nat) :
    ∀ (script : List StbStep) (clock b_tag : Nat) (addrs : List Nat) (available : Bool)
      (run : StbRun),
      read_stb_go addr end_time clock b_tag addrs available script = .ok run →
      ∀ a ∈ run.addrs, a = addr ∨ a ∈ addrs := by
  intro script
  induction script with
  | nil =>
    intro clock b_tag addrs available run h a ha
    simp only [read_stb_go] at h
    by_cases hc : clock < end_time ∧ available = false
    · rw [if_pos hc] at h
      exact absurd h (by simp)
    · rw [if_neg hc] at h
      have hrun := (Outcome.ok.inj h).symm
      subst hrun
      exact Or.inr ha
  | cons s rest ih =>
    intro clock b_tag addrs available run h a ha
    simp only [read_stb_go] at h
    by_cases hc : clock < end_time ∧ available = false
    · rw [if_pos hc] at h
      cases hctrl : s.control with
      | error e2 =>
        rw [hctrl] at h
        dsimp only at h
        exact absurd h (by simp)
      | ok bytes =>
        rw [hctrl] at h
        dsimp only at h
        cases hchk : check_response_status (bytes.take 3) with
        | error e3 =>
          rw [hchk] at h
          dsimp only at h
          exact ih _ _ _ _ _ h a ha
        | ok u =>
          rw [hchk] at h
          dsimp only at h
          cases hint : s.interrupt addr with
          | error e2 =>
            rw [hint] at h
            dsimp only at h
            exact absurd h (by simp)
          | ok ib =>
            rw [hint] at h
            dsimp only at h
            rcases ih _ _ _ _ _ h a ha with h2 | h2
            · exact Or.inl h2
            · rcases List.mem_append.mp h2 with h3 | h3
              · exact Or.inr h3
              · exact Or.inl (List.mem_singleton.mp h3)
    · rw [if_neg hc] at h
      have hrun := (Outcome.ok.inj h).symm
      subst hrun
      exact Or.inr ha

/-- Claim C10: for a session whose endpoint set has no interrupt-in endpoint,
`read_stb` never fails with the unsupported-feature error: every interrupt
read it issues goes to endpoint address 0 (`unwrap_or(0)`), and any failure it
returns is a propagated transport error. -/
theorem read_stb_no_interrupt_endpoint (st : HandleState) (timeout : Option Nat)
    (script : List StbStep) (h : st.endpoints.interrupt_in_address = none) :
    (∀ run, read_stb st timeout script = .ok run →
      run.addrs = List.replicate run.addrs.length 0) ∧
    (∀ e, read_stb st timeout script = .err e → ∃ code, e = .rusb code) ∧
    read_stb st timeout script ≠ .err (.classError .unsupportedFeature) := by
  have haddr : st.endpoints.interrupt_in_address.getD 0 = 0 := by rw [h]; rfl
  refine ⟨?_, ?_, ?_⟩
  · intro run hrun
    apply List.eq_replicate_of_mem
    intro a ha
    simp only [read_stb] at hrun
    rcases read_stb_go_addrs (st.endpoints.interrupt_in_address.getD 0) (timeout.getD 1000)
        script 0 st.b_tag [] false run hrun a ha with h2 | h2
    · rw [← haddr]; exact h2
    · simp at h2
  · intro e he
    simp only [read_stb] at he
    exact read_stb_go_err_rusb (st.endpoints.interrupt_in_address.getD 0)
      (timeout.getD 1000) script 0 st.b_tag [] false e he
  · intro hcontra
    simp only [read_stb] at hcontra
    obtain ⟨code, hcode⟩ := read_stb_go_err_rusb (st.endpoints.interrupt_in_address.getD 0)
      (timeout.getD 1000) script 0 st.b_tag [] false _ hcontra
    exact TMCError.noConfusion hcode

/-- Witness for `read_stb_no_interrupt_endpoint`: a session without an
interrupt-in endpoint performs its single interrupt read against address 0, so
the recorded address list is all zeros. -/
theorem read_stb_no_interrupt_endpoint_witness :
    ([0] : List Nat) = List.replicate ([0] : List Nat).length 0 :=
  (read_stb_no_interrupt_endpoint sampleState (some 100)
      [⟨.ok [1], fun _ => .ok [0, 0]⟩] rfl).1 ⟨100, 2, false, [0]⟩ rfl

end Usbtmc
